import Mathlib

set_option maxRecDepth 100000

/-!
Shallow embedding of the pngme chunk layer (`src/chunk_type.rs`, `src/chunk.rs`).
Bytes are modelled as `Nat` (values < 256 where they come from real buffers),
machine `u32` values as `Nat` with explicit reductions modulo 2^32.
Strings handed to `FromStr for ChunkType` are modelled as `List Char`;
`char::is_alphabetic` and `char::is_uppercase` are modelled on the ASCII
fragment (where they agree with the Unicode predicates), and every theorem
quantifying over strings carries an explicit all-ASCII hypothesis.
-/

namespace Pngme

/-- `u32::from_be_bytes` generalised to a fold over a byte list:
for a 4-element list this is exactly big-endian decoding. -/
def u32fromBe (l : List Nat) : Nat :=
  l.foldl (fun acc b => acc * 256 + b) 0

/-- `u32::to_be_bytes`: the 4 big-endian bytes of a 32-bit value. -/
def u32toBe (n : Nat) : List Nat :=
  [n / 16777216 % 256, n / 65536 % 256, n / 256 % 256, n % 256]

/-! ## CRC-32/ISO-HDLC (the `crc` crate's `CRC_32_ISO_HDLC`)
Reflected algorithm: polynomial 0xEDB88320 (reflected 0x04C11DB7),
initial value 0xFFFFFFFF, final xor 0xFFFFFFFF. -/

/-- One bit-step of the reflected CRC-32 update. -/
def crc32Step (crc : Nat) : Nat :=
  if crc % 2 = 1 then (crc / 2) ^^^ 0xEDB88320 else crc / 2

/-- Fold one input byte into the CRC state (8 bit-steps). -/
def crc32Byte (crc b : Nat) : Nat :=
  crc32Step^[8] (crc ^^^ b)

/-- `Crc::<u32>::new(&CRC_32_ISO_HDLC).checksum(data)`. -/
def crc32 (data : List Nat) : Nat :=
  (data.foldl crc32Byte 0xFFFFFFFF) ^^^ 0xFFFFFFFF

/-! ## ChunkType (`src/chunk_type.rs`) -/

/-- `ChunkType { inner: u32 }`: the 4-byte code stored as a big-endian u32. -/
structure ChunkType where
  inner : Nat
deriving DecidableEq, Repr

/-- `fn fifth_bit_check(byte: u8, set: bool) -> bool { byte >> 5 & 1 == u8::from(set) }` -/
def fifth_bit_check (byte : Nat) (set : Bool) : Bool :=
  (byte >>> 5) &&& 1 == (if set then 1 else 0)

/-- `ChunkType::bytes`: `self.inner.to_be_bytes()`. -/
def ChunkType.bytes (c : ChunkType) : List Nat :=
  u32toBe c.inner

/-- `char::is_alphabetic` on the ASCII fragment (A-Z, a-z). -/
def charIsAlphabetic (c : Char) : Bool :=
  (65 ≤ c.toNat && c.toNat ≤ 90) || (97 ≤ c.toNat && c.toNat ≤ 122)

/-- `char::is_uppercase` on the ASCII fragment (A-Z). -/
def charIsUppercase (c : Char) : Bool :=
  65 ≤ c.toNat && c.toNat ≤ 90

/-- ASCII-byte version of `char::is_alphabetic`. -/
def byteIsAlphabetic (b : Nat) : Bool :=
  (65 ≤ b && b ≤ 90) || (97 ≤ b && b ≤ 122)

/-- ASCII-byte version of `char::is_uppercase`. -/
def byteIsUppercase (b : Nat) : Bool :=
  65 ≤ b && b ≤ 90

/-- `ChunkType::is_valid`: formats the code as text and checks it is 4
characters, all alphabetic, with the 3rd character uppercase.  Modelled on
codes whose 4 bytes are ASCII, where the formatted characters coincide with
the bytes; every theorem using it restricts to all-ASCII-alphabetic codes. -/
def ChunkType.is_valid (c : ChunkType) : Bool :=
  c.bytes.length == 4 && c.bytes.all byteIsAlphabetic &&
    byteIsUppercase (c.bytes.getD 2 0)

/-- `ChunkType::is_critical`: bit 5 of byte 0 is clear. -/
def ChunkType.is_critical (c : ChunkType) : Bool :=
  fifth_bit_check (c.bytes.getD 0 0) false

/-- `ChunkType::is_public`: bit 5 of byte 1 is clear. -/
def ChunkType.is_public (c : ChunkType) : Bool :=
  fifth_bit_check (c.bytes.getD 1 0) false

/-- `ChunkType::is_reserved_bit_valid`: bit 5 of byte 2 is clear. -/
def ChunkType.is_reserved_bit_valid (c : ChunkType) : Bool :=
  fifth_bit_check (c.bytes.getD 2 0) false

/-- `ChunkType::is_safe_to_copy`: bit 5 of byte 3 is set. -/
def ChunkType.is_safe_to_copy (c : ChunkType) : Bool :=
  fifth_bit_check (c.bytes.getD 3 0) true

/-- `TryFrom<[u8; 4]> for ChunkType`: always succeeds,
`inner = u32::from_be_bytes(value)`. -/
def ChunkType.tryFromBytes (value : List Nat) : Except Unit ChunkType :=
  Except.ok ⟨u32fromBe value⟩

/-- Outcome of `<ChunkType as FromStr>::from_str`: an `Err(())`, a success, or
a panic (the `unwrap` on `s.as_bytes().try_into()` when the byte length is
not 4). -/
inductive FromStrResult where
  | ok (c : ChunkType)
  | err
  | panic
deriving DecidableEq, Repr

/-- `FromStr for ChunkType`: errors if any character is non-alphabetic;
otherwise `u32::from_be_bytes(s.as_bytes().try_into().unwrap())`, which
panics unless the string is exactly 4 bytes.  Modelled for ASCII strings,
where `as_bytes` is the character codes and byte length equals char count. -/
def ChunkType.from_str (s : List Char) : FromStrResult :=
  if !(s.all charIsAlphabetic) then .err
  else if s.length = 4 then .ok ⟨u32fromBe (s.map Char.toNat)⟩
  else .panic

/-! ## Chunk (`src/chunk.rs`) -/

/-- `Chunk { ctype: ChunkType, cdata: Vec<u8> }`. -/
structure Chunk where
  ctype : ChunkType
  cdata : List Nat
deriving DecidableEq, Repr

/-- `Chunk::new`. -/
def Chunk.new (ctype : ChunkType) (cdata : List Nat) : Chunk :=
  ⟨ctype, cdata⟩

/-- `Chunk::chunk_type`. -/
def Chunk.chunk_type (c : Chunk) : ChunkType := c.ctype

/-- `Chunk::data`. -/
def Chunk.data (c : Chunk) : List Nat := c.cdata

/-- `Chunk::length`: `self.data().len() as u32`. -/
def Chunk.length (c : Chunk) : Nat := c.data.length % 4294967296

/-- `Chunk::crc`: CRC-32/ISO-HDLC over `type_bytes || data`. -/
def Chunk.crc (c : Chunk) : Nat :=
  crc32 (c.chunk_type.bytes ++ c.data)

/-- `Chunk::as_bytes`: `[self.chunk_type().bytes().as_slice(), self.data()].concat()`
— the type bytes followed by the payload, nothing else. -/
def Chunk.as_bytes (c : Chunk) : List Nat :=
  c.chunk_type.bytes ++ c.data

/-- Errors `TryFrom<&[u8]> for Chunk` returns as values: the propagated
`read_exact` failure on inputs shorter than 8 bytes, and the
`"crc does not match"` error. -/
inductive ParseError where
  | eof
  | crcMismatch
deriving DecidableEq, Repr

/-- Outcome of `TryFrom<&[u8]> for Chunk`: success, an error value, or a
panic (the slice `&value[8..value.len() - 4]` is out of bounds when
`8 <= value.len() < 12`). -/
inductive ParseResult where
  | ok (c : Chunk)
  | err (e : ParseError)
  | panic
deriving DecidableEq, Repr

/-- `TryFrom<&[u8]> for Chunk`, step by step from the source:
seek to 4 and `read_exact` 4 type bytes (fails with an I/O error if fewer
than 8 bytes are available); slice the payload as `value[8..value.len()-4]`
(panics when the length is 8..11); read the last 4 bytes as the stored CRC;
recompute CRC-32 over `type || payload` and compare; never reads bytes 0..4
(the declared length field). -/
def Chunk.tryFrom (value : List Nat) : ParseResult :=
  if value.length < 8 then .err .eof
  else if value.length < 12 then .panic
  else
    let ctypeBuf := (value.drop 4).take 4
    let cdata := (value.drop 8).take (value.length - 12)
    let crcBuf := value.drop (value.length - 4)
    if crc32 (ctypeBuf ++ cdata) ≠ u32fromBe crcBuf then .err .crcMismatch
    else .ok (Chunk.new ⟨u32fromBe ctypeBuf⟩ cdata)

/-! ## Concrete fixtures from the repository's tests -/

/-- The byte string `"This is where your secret message will be!"`. -/
def secretMessage : List Nat :=
  [84, 104, 105, 115, 32, 105, 115, 32, 119, 104, 101, 114, 101, 32, 121,
   111, 117, 114, 32, 115, 101, 99, 114, 101, 116, 32, 109, 101, 115, 115,
   97, 103, 101, 32, 119, 105, 108, 108, 32, 98, 101, 33]

/-- The type bytes of `"RuSt"`. -/
def rustBytes : List Nat := [82, 117, 83, 116]

/-- The wire frame built by the repository's `testing_chunk` fixture:
length 42 (BE) || `"RuSt"` || message || CRC 2882656334 (BE). -/
def rustFrame : List Nat :=
  u32toBe 42 ++ rustBytes ++ secretMessage ++ u32toBe 2882656334

/-- A 12-byte frame whose declared length field (100) exceeds the
available payload bytes (0), with a CRC that matches `type || payload`. -/
def overLengthFrame : List Nat :=
  [0, 0, 0, 100] ++ rustBytes ++ u32toBe (crc32 rustBytes)

/-! ## Helper lemmas -/

theorem u32toBe_length (n : Nat) : (u32toBe n).length = 4 := rfl

theorem u32toBe_mem_lt (n : Nat) : ∀ b ∈ u32toBe n, b < 256 := by
  intro b hb
  simp only [u32toBe, List.mem_cons, List.not_mem_nil, or_false] at hb
  rcases hb with h | h | h | h <;> omega

theorem u32fromBe_u32toBe (n : Nat) (h : n < 4294967296) :
    u32fromBe (u32toBe n) = n := by
  simp only [u32fromBe, u32toBe, List.foldl]
  omega

theorem xor_lt_u32 {a b : Nat} (ha : a < 4294967296) (hb : b < 4294967296) :
    a ^^^ b < 4294967296 := by
  have e : (4294967296 : Nat) = 2 ^ 32 := by norm_num
  rw [e] at ha hb ⊢
  exact Nat.xor_lt_two_pow ha hb

theorem crc32Step_lt {x : Nat} (h : x < 4294967296) :
    crc32Step x < 4294967296 := by
  unfold crc32Step
  split
  · exact xor_lt_u32 (by omega) (by norm_num)
  · omega

theorem crc32Step_iter_lt (n : Nat) {x : Nat} (h : x < 4294967296) :
    crc32Step^[n] x < 4294967296 := by
  induction n generalizing x with
  | zero => simpa using h
  | succ k ih =>
    rw [Function.iterate_succ_apply]
    exact ih (crc32Step_lt h)

theorem crc32Byte_lt {x b : Nat} (hx : x < 4294967296) (hb : b < 256) :
    crc32Byte x b < 4294967296 := by
  unfold crc32Byte
  exact crc32Step_iter_lt 8 (xor_lt_u32 hx (by omega))

theorem crc32_foldl_lt {l : List Nat} {x : Nat} (hx : x < 4294967296)
    (hl : ∀ b ∈ l, b < 256) : l.foldl crc32Byte x < 4294967296 := by
  induction l generalizing x with
  | nil => simpa using hx
  | cons a t ih =>
    simp only [List.foldl_cons]
    exact ih (crc32Byte_lt hx (hl a (by simp))) (fun b hb => hl b (by simp [hb]))

theorem crc32_lt {l : List Nat} (hl : ∀ b ∈ l, b < 256) :
    crc32 l < 4294967296 := by
  unfold crc32
  exact xor_lt_u32 (crc32_foldl_lt (by norm_num) hl) (by norm_num)

/-- The outcome of chunk parsing depends only on the bytes after the 4-byte
length prefix: parsing `u ++ rest` with `u` of length 4 is determined by
`rest` alone. -/
theorem tryFrom_append4 (u rest : List Nat) (hu : u.length = 4) :
    Chunk.tryFrom (u ++ rest) =
      if rest.length < 4 then .err .eof
      else if rest.length < 8 then .panic
      else if crc32 (rest.take 4 ++ (rest.drop 4).take (rest.length - 8))
          ≠ u32fromBe (rest.drop (rest.length - 4)) then .err .crcMismatch
      else .ok (Chunk.new ⟨u32fromBe (rest.take 4)⟩
        ((rest.drop 4).take (rest.length - 8))) := by
  have hlen : (u ++ rest).length = 4 + rest.length := by simp [hu]
  have hdrop4 : (u ++ rest).drop 4 = rest := List.drop_left' hu
  unfold Chunk.tryFrom
  rw [hlen]
  by_cases h4 : rest.length < 4
  · rw [if_pos (by omega), if_pos h4]
  · rw [if_neg (by omega), if_neg h4]
    by_cases h8 : rest.length < 8
    · rw [if_pos (by omega), if_pos h8]
    · rw [if_neg (by omega), if_neg h8]
      have hdrop8 : (u ++ rest).drop 8 = rest.drop 4 := by
        rw [show (8 : Nat) = 4 + 4 from rfl, ← List.drop_drop, hdrop4]
      have hdropEnd : (u ++ rest).drop (4 + rest.length - 4)
          = rest.drop (rest.length - 4) := by
        rw [show 4 + rest.length - 4 = 4 + (rest.length - 4) by omega,
          ← List.drop_drop, hdrop4]
      have hsub : 4 + rest.length - 12 = rest.length - 8 := by omega
      simp only [hdrop4, hdrop8, hdropEnd, hsub]

/-- Parsing a well-framed buffer `L || T || d || crcBE(T || d)` with a 4-byte
length field `L`, 4-byte type `T` and byte payload `d` succeeds and recovers
`T` and `d` — whatever `L` says. -/
theorem tryFrom_parts (L T d : List Nat) (hL : L.length = 4) (hT : T.length = 4)
    (hTb : ∀ b ∈ T, b < 256) (hd : ∀ b ∈ d, b < 256) :
    Chunk.tryFrom (L ++ T ++ d ++ u32toBe (crc32 (T ++ d)))
      = .ok (Chunk.new ⟨u32fromBe T⟩ d) := by
  have hcrc : u32fromBe (u32toBe (crc32 (T ++ d))) = crc32 (T ++ d) := by
    apply u32fromBe_u32toBe
    apply crc32_lt
    intro b hb
    rcases List.mem_append.mp hb with h | h
    · exact hTb b h
    · exact hd b h
  have hrestlen : (T ++ (d ++ u32toBe (crc32 (T ++ d)))).length = d.length + 8 := by
    simp only [List.length_append, hT, u32toBe_length]
    omega
  rw [List.append_assoc, List.append_assoc, tryFrom_append4 L _ hL, hrestlen]
  rw [if_neg (by omega), if_neg (by omega)]
  have f1 : (T ++ (d ++ u32toBe (crc32 (T ++ d)))).take 4 = T :=
    List.take_left' hT
  have f2 : (T ++ (d ++ u32toBe (crc32 (T ++ d)))).drop 4
      = d ++ u32toBe (crc32 (T ++ d)) := List.drop_left' hT
  have f3 : (d ++ u32toBe (crc32 (T ++ d))).take (d.length + 8 - 8) = d := by
    rw [Nat.add_sub_cancel]
    exact List.take_left d _
  have f4 : (T ++ (d ++ u32toBe (crc32 (T ++ d)))).drop (d.length + 8 - 4)
      = u32toBe (crc32 (T ++ d)) := by
    rw [show T ++ (d ++ u32toBe (crc32 (T ++ d)))
        = (T ++ d) ++ u32toBe (crc32 (T ++ d)) from by simp,
      show d.length + 8 - 4 = (T ++ d).length from by
        rw [List.length_append, hT]; omega]
    exact List.drop_left _ _
  rw [f1, f2, f3, f4, hcrc]
  rw [if_neg (by simp)]

/-- For a buffer of at least 12 bytes, parsing reduces to the CRC comparison
over the type bytes (offsets 4..8) and the payload (offset 8 to 4 bytes
before the end), against the trailing 4 bytes read big-endian. -/
theorem tryFrom_of_ge12 (v : List Nat) (hv : 12 ≤ v.length) :
    Chunk.tryFrom v =
      if crc32 ((v.drop 4).take 4 ++ (v.drop 8).take (v.length - 12))
          ≠ u32fromBe (v.drop (v.length - 4)) then .err .crcMismatch
      else .ok (Chunk.new ⟨u32fromBe ((v.drop 4).take 4)⟩
        ((v.drop 8).take (v.length - 12))) := by
  unfold Chunk.tryFrom
  rw [if_neg (by omega), if_neg (by omega)]

/-- For bytes, bit 5 clear/set is equivalent to the 0x20-mask test. -/
theorem fifth_bit_mask : ∀ b : Nat, b < 256 →
    ((fifth_bit_check b false = true ↔ b &&& 32 = 0) ∧
      (fifth_bit_check b true = true ↔ b &&& 32 = 32)) := by decide

/-- For ASCII-alphabetic bytes, bit 5 clear is exactly uppercase. -/
theorem alpha_fifth_bit : ∀ b : Nat, b < 256 → byteIsAlphabetic b = true →
    ((fifth_bit_check b false = true ↔ byteIsUppercase b = true) ∧
      (byteIsUppercase b = true ↔ b &&& 32 = 0)) := by decide

theorem bytes_getD_lt (c : ChunkType) (k : Nat) : c.bytes.getD k 0 < 256 := by
  rcases k with _ | _ | _ | _ | k
  · exact Nat.mod_lt _ (by norm_num)
  · exact Nat.mod_lt _ (by norm_num)
  · exact Nat.mod_lt _ (by norm_num)
  · exact Nat.mod_lt _ (by norm_num)
  · show (0 : Nat) < 256
    norm_num

/-! ## Claim theorems -/

/-- C1 (corrected): `Chunk::as_bytes` emits exactly `type(4) || payload` —
the 4-byte big-endian length prefix and the 4-byte big-endian CRC of the
claimed wire frame are not part of its output. -/
theorem C1_thm (t : ChunkType) (d : List Nat) :
    Chunk.as_bytes (Chunk.new t d) = t.bytes ++ d ∧
      (Chunk.as_bytes (Chunk.new t d)).length = 4 + d.length := by
  refine ⟨rfl, ?_⟩
  simp only [Chunk.as_bytes, Chunk.new, Chunk.chunk_type, Chunk.data,
    ChunkType.bytes, List.length_append, u32toBe_length]

/-- C1 counterexample: on the repository's own test fixture (type `"RuSt"`,
the 42-byte secret message), `as_bytes` differs from the claimed full frame
`length(4 BE) || type || payload || crc(4 BE)`. -/
theorem C1_counterexample :
    Chunk.as_bytes (Chunk.new ⟨u32fromBe rustBytes⟩ secretMessage)
      ≠ u32toBe 42 ++ rustBytes ++ secretMessage
          ++ u32toBe (crc32 (rustBytes ++ secretMessage)) := by decide

/-- C2 (corrected): since `as_bytes` omits the framing, the round-trip law
holds for the externally built full frame: for every ChunkType (with a
32-bit inner value) and every byte payload, parsing
`length(4 BE) || type || payload || crc(4 BE)` with the CRC computed over
`type || payload` succeeds and yields the same type and payload. -/
theorem C2_thm (t : ChunkType) (d : List Nat) (ht : t.inner < 4294967296)
    (hd : ∀ b ∈ d, b < 256) :
    Chunk.tryFrom (u32toBe d.length ++ t.bytes ++ d
        ++ u32toBe (crc32 (t.bytes ++ d))) = .ok (Chunk.new t d) := by
  have h := tryFrom_parts (u32toBe d.length) t.bytes d (u32toBe_length _) rfl
    (u32toBe_mem_lt t.inner) hd
  rw [h]
  rw [show u32fromBe (ChunkType.bytes t) = t.inner from u32fromBe_u32toBe t.inner ht]

theorem C2_thm_witness :
    Chunk.tryFrom (u32toBe secretMessage.length
        ++ (ChunkType.mk (u32fromBe rustBytes)).bytes ++ secretMessage
        ++ u32toBe (crc32 ((ChunkType.mk (u32fromBe rustBytes)).bytes
            ++ secretMessage)))
      = .ok (Chunk.new ⟨u32fromBe rustBytes⟩ secretMessage) :=
  C2_thm ⟨u32fromBe rustBytes⟩ secretMessage (by decide) (by decide)

/-- C2 counterexample: parsing the bytes produced by `as_bytes` on a chunk
with type `"RuSt"` and empty payload fails (the 4-byte output is shorter
than the 8 bytes `read_exact` needs), refuting the claimed round-trip. -/
theorem C2_counterexample :
    Chunk.tryFrom (Chunk.as_bytes (Chunk.new ⟨u32fromBe rustBytes⟩ []))
      = .err .eof := by decide

/-- C3 (code bug): on the 8-byte all-zero buffer, chunk parsing evaluates
the slice `&value[8..value.len() - 4]` with an out-of-bounds range and
panics, instead of returning a truncated-frame error value. -/
theorem C3_thm :
    Chunk.tryFrom [0, 0, 0, 0, 0, 0, 0, 0] = .panic := by decide

/-- C4 counterexample: a 12-byte frame whose declared length field is 100
(exceeding the 0 available payload bytes) parses successfully — no
truncation error is raised, because the length field is never read. -/
theorem C4_counterexample :
    u32fromBe (overLengthFrame.take 4) = 100 ∧
      overLengthFrame.length = 12 ∧
      Chunk.tryFrom overLengthFrame
        = .ok (Chunk.new ⟨u32fromBe rustBytes⟩ []) := by decide

/-- C4 (corrected): the declared length field is never consulted; for every
buffer of at least 12 bytes whose declared length exceeds the available
payload bytes, parsing still returns either success or a CRC-mismatch
error, decided by the CRC comparison alone — never a truncation failure. -/
theorem C4_thm (v : List Nat) (hv : 12 ≤ v.length)
    (hover : v.length - 12 < u32fromBe (v.take 4)) :
    Chunk.tryFrom v = .err .crcMismatch ∨
      Chunk.tryFrom v = .ok (Chunk.new ⟨u32fromBe ((v.drop 4).take 4)⟩
        ((v.drop 8).take (v.length - 12))) := by
  rw [tryFrom_of_ge12 v hv]
  split
  · exact Or.inl rfl
  · exact Or.inr rfl

theorem C4_thm_witness :
    Chunk.tryFrom overLengthFrame = .err .crcMismatch ∨
      Chunk.tryFrom overLengthFrame
        = .ok (Chunk.new ⟨u32fromBe ((overLengthFrame.drop 4).take 4)⟩
            ((overLengthFrame.drop 8).take (overLengthFrame.length - 12))) :=
  C4_thm overLengthFrame (by decide) (by decide)

/-- C10 (confirmed): the concrete fixture frame — length 42 (BE), type
`"RuSt"`, the 42-byte secret message, CRC 2882656334 (BE) — parses
successfully, and the resulting chunk reports length 42 and CRC
2882656334. -/
theorem C10_thm :
    Chunk.tryFrom rustFrame
        = .ok (Chunk.new ⟨u32fromBe rustBytes⟩ secretMessage) ∧
      (Chunk.new ⟨u32fromBe rustBytes⟩ secretMessage).length = 42 ∧
      (Chunk.new ⟨u32fromBe rustBytes⟩ secretMessage).crc = 2882656334 := by
  decide

/-- C5 counterexample: `"Rus"` is all-alphabetic text of length 3; the claim
says any text of length other than 4 is rejected with an error, but
`from_str` reaches `s.as_bytes().try_into().unwrap()` on 3 bytes and
panics. -/
theorem C5_counterexample :
    ChunkType.from_str ['R', 'u', 's'] = .panic := by decide

/-- C5 (corrected): `from_str` returns an error exactly when some character
is non-alphabetic; it performs no length check — for all-alphabetic ASCII
text it succeeds when the length is 4 (with `inner` the big-endian value of
the 4 character codes) and panics on the failed 4-byte conversion
otherwise. -/
theorem C5_thm (s : List Char)
    (hascii : s.all (fun c => c.toNat < 128) = true) :
    (ChunkType.from_str s = .err ↔ s.all charIsAlphabetic = false) ∧
      (s.all charIsAlphabetic = true → s.length = 4 →
        ChunkType.from_str s = .ok ⟨u32fromBe (s.map Char.toNat)⟩) ∧
      (s.all charIsAlphabetic = true → s.length ≠ 4 →
        ChunkType.from_str s = .panic) := by
  cases hb : s.all charIsAlphabetic with
  | false => simp [ChunkType.from_str, hb]
  | true =>
    by_cases hl : s.length = 4
    · simp [ChunkType.from_str, hb, hl]
    · simp [ChunkType.from_str, hb, hl]

theorem C5_thm_witness :
    ChunkType.from_str ['R', 'u', 'S', 't']
      = .ok ⟨u32fromBe (['R', 'u', 'S', 't'].map Char.toNat)⟩ :=
  (C5_thm ['R', 'u', 'S', 't'] (by decide)).2.1 (by decide) (by decide)

/-- C6 (confirmed): parsing never reads the declared length field — for any
buffer of at least 12 bytes the payload of a successfully parsed chunk is
exactly the bytes from offset 8 to 4 before the end, and buffers that
differ only in their first 4 bytes parse to identical results. -/
theorem C6_thm :
    (∀ v : List Nat, 12 ≤ v.length → ∀ c : Chunk, Chunk.tryFrom v = .ok c →
        c.cdata = (v.drop 8).take (v.length - 12)) ∧
      (∀ u w rest : List Nat, u.length = 4 → w.length = 4 →
        Chunk.tryFrom (u ++ rest) = Chunk.tryFrom (w ++ rest)) := by
  constructor
  · intro v hv c hc
    rw [tryFrom_of_ge12 v hv] at hc
    split at hc
    · exact absurd hc (by simp)
    · cases hc
      rfl
  · intro u w rest hu hw
    rw [tryFrom_append4 u rest hu, tryFrom_append4 w rest hw]

theorem C6_thm_witness :
    (Chunk.new ⟨u32fromBe rustBytes⟩ secretMessage).cdata
        = (rustFrame.drop 8).take (rustFrame.length - 12) ∧
      Chunk.tryFrom ([0, 0, 0, 42]
          ++ (rustBytes ++ secretMessage ++ u32toBe 2882656334))
        = Chunk.tryFrom ([9, 9, 9, 9]
          ++ (rustBytes ++ secretMessage ++ u32toBe 2882656334)) :=
  ⟨C6_thm.1 rustFrame (by decide)
      (Chunk.new ⟨u32fromBe rustBytes⟩ secretMessage) (by decide),
   C6_thm.2 [0, 0, 0, 42] [9, 9, 9, 9]
      (rustBytes ++ secretMessage ++ u32toBe 2882656334)
      (by decide) (by decide)⟩

/-- C7 (confirmed): for every buffer of at least 12 bytes, parsing fails
with a CRC-mismatch error iff the CRC-32/ISO-HDLC recomputed over the 4
type bytes and the extracted payload differs from the last 4 bytes of the
buffer read as a big-endian 32-bit integer; when they agree, parsing
succeeds. -/
theorem C7_thm (v : List Nat) (hv : 12 ≤ v.length) :
    (Chunk.tryFrom v = .err .crcMismatch ↔
      crc32 ((v.drop 4).take 4 ++ (v.drop 8).take (v.length - 12))
        ≠ u32fromBe (v.drop (v.length - 4))) ∧
      (crc32 ((v.drop 4).take 4 ++ (v.drop 8).take (v.length - 12))
          = u32fromBe (v.drop (v.length - 4)) →
        Chunk.tryFrom v = .ok (Chunk.new ⟨u32fromBe ((v.drop 4).take 4)⟩
          ((v.drop 8).take (v.length - 12)))) := by
  rw [tryFrom_of_ge12 v hv]
  constructor
  · constructor
    · intro h
      by_contra hc
      rw [if_neg (fun hne => hne hc)] at h
      exact absurd h (by simp)
    · intro h
      rw [if_pos h]
  · intro h
    rw [if_neg (by simp [h])]

theorem C7_thm_witness :
    (Chunk.tryFrom rustFrame = .err .crcMismatch ↔
      crc32 ((rustFrame.drop 4).take 4
          ++ (rustFrame.drop 8).take (rustFrame.length - 12))
        ≠ u32fromBe (rustFrame.drop (rustFrame.length - 4))) ∧
      (crc32 ((rustFrame.drop 4).take 4
          ++ (rustFrame.drop 8).take (rustFrame.length - 12))
          = u32fromBe (rustFrame.drop (rustFrame.length - 4)) →
        Chunk.tryFrom rustFrame
          = .ok (Chunk.new ⟨u32fromBe ((rustFrame.drop 4).take 4)⟩
            ((rustFrame.drop 8).take (rustFrame.length - 12)))) :=
  C7_thm rustFrame (by decide)

/-- C8 (confirmed): for every ChunkType whose 4 bytes are all ASCII
alphabetic, `is_valid`, `is_reserved_bit_valid`, and "the 3rd byte is
uppercase (bit 5 / mask 0x20 clear)" are equivalent. -/
theorem C8_thm (c : ChunkType) (h : c.bytes.all byteIsAlphabetic = true) :
    (c.is_valid = true ↔ c.is_reserved_bit_valid = true) ∧
      (c.is_reserved_bit_valid = true ↔
        byteIsUppercase (c.bytes.getD 2 0) = true) ∧
      (byteIsUppercase (c.bytes.getD 2 0) = true ↔
        c.bytes.getD 2 0 &&& 32 = 0) := by
  have key := alpha_fifth_bit (c.bytes.getD 2 0) (bytes_getD_lt c 2) (by
    obtain ⟨n⟩ := c
    simp only [ChunkType.bytes, u32toBe, List.all_cons, List.all_nil,
      Bool.and_true, Bool.and_eq_true] at h
    exact h.2.2.1)
  refine ⟨?_, key.1, key.2⟩
  unfold ChunkType.is_valid ChunkType.is_reserved_bit_valid
  rw [h]
  constructor
  · intro hv
    simp only [Bool.and_eq_true] at hv
    exact key.1.mpr hv.2
  · intro hr
    simp only [Bool.and_eq_true]
    exact ⟨⟨rfl, trivial⟩, key.1.mp hr⟩

theorem C8_thm_witness :
    ((ChunkType.mk (u32fromBe rustBytes)).is_valid = true ↔
        (ChunkType.mk (u32fromBe rustBytes)).is_reserved_bit_valid = true) ∧
      ((ChunkType.mk (u32fromBe rustBytes)).is_reserved_bit_valid = true ↔
        byteIsUppercase ((ChunkType.mk (u32fromBe rustBytes)).bytes.getD 2 0)
          = true) ∧
      (byteIsUppercase ((ChunkType.mk (u32fromBe rustBytes)).bytes.getD 2 0)
          = true ↔
        (ChunkType.mk (u32fromBe rustBytes)).bytes.getD 2 0 &&& 32 = 0) :=
  C8_thm ⟨u32fromBe rustBytes⟩ (by decide)

/-- C9 (confirmed): `is_critical`, `is_public`, `is_reserved_bit_valid`
test bit 5 (mask 0x20) of bytes 0, 1, 2 and are true when it is 0;
`is_safe_to_copy` tests bit 5 of byte 3 and is true when it is 1. -/
theorem C9_thm (c : ChunkType) :
    (c.is_critical = true ↔ c.bytes.getD 0 0 &&& 32 = 0) ∧
      (c.is_public = true ↔ c.bytes.getD 1 0 &&& 32 = 0) ∧
      (c.is_reserved_bit_valid = true ↔ c.bytes.getD 2 0 &&& 32 = 0) ∧
      (c.is_safe_to_copy = true ↔ c.bytes.getD 3 0 &&& 32 = 32) :=
  ⟨(fifth_bit_mask _ (bytes_getD_lt c 0)).1,
   (fifth_bit_mask _ (bytes_getD_lt c 1)).1,
   (fifth_bit_mask _ (bytes_getD_lt c 2)).1,
   (fifth_bit_mask _ (bytes_getD_lt c 3)).2⟩

end Pngme
